import Mathlib

/-!
Shallow embedding of the CSV report transformer (`src/app.py`) and of the
file-archive delete operation, together with theorems settling the claims
about them.

Modelling conventions:
* a text cell is `Option String`; `none` models a null (NaN) cell; in
  particular `Trunk Group` may be null, since the row filter never
  examines it;
* a numeric cell is `Option Rat`; `some q` models raw text that coerces to
  the number `q`, `none` models text that fails numeric coercion (pandas
  `to_numeric(errors=coerce)` produces NaN there, and `fillna(0)` then
  turns it into 0);
* the group key is an `Option String`: pandas object-column concatenation
  propagates a missing value, so a null `Trunk Group` yields a missing
  (`none`) key, and pandas equality (`keyEq`) treats a missing key as
  unequal to every key, itself included, while `unique()` (`dedupKeys`)
  still lists the missing key once;
* `round2` models Python `round(x, 2)` on the ideal (rational) values;
* the input table is given as its column-name list (used by schema
  validation) plus its rows already projected onto the seven required
  columns, exactly the fields `process_csv` reads after validation.
-/

/-- Whitespace test for a character, modelling Python `str.strip` blanks. -/
def isWsChar (c : Char) : Bool :=
  c == ' ' || c == '\t' || c == '\n' || c == '\r'

/-- A string is blank when every character is whitespace, i.e. Python
`s.strip() == ''`. -/
def isBlankStr (s : String) : Bool :=
  s.toList.all isWsChar

/-- A text cell is blank when it is null or a whitespace-only string. -/
def isBlankCell (v : Option String) : Bool :=
  match v with
  | none => true
  | some s => isBlankStr s

/-- Does the character list starting here begin with the pattern? -/
def matchesAt : List Char → List Char → Bool
  | _, [] => true
  | [], _ :: _ => false
  | c :: cs, p :: ps => c == p && matchesAt cs ps

/-- Does the pattern occur as a contiguous run anywhere in the list? -/
def containsPat : List Char → List Char → Bool
  | [], p => matchesAt [] p
  | c :: rest, p => matchesAt (c :: rest) p || containsPat rest p

/-- Substring test on strings, modelling pandas `str.contains` with a
literal (regex-free) pattern. -/
def strContains (s pat : String) : Bool :=
  containsPat s.toList pat.toList

/-- An input row, projected onto the seven required columns
(`src/app.py` line 36). -/
structure InRow where
  customer : String
  trunkGroup : Option String
  country : Option String
  vendor : Option String
  revenue : Option Rat
  cost : Option Rat
  profit : Option Rat
deriving DecidableEq

/-- A row after numeric coercion: `Revenue`, `Cost`, `Profit` are numbers
(`src/app.py` lines 53-55). -/
structure Row where
  customer : String
  trunkGroup : Option String
  country : Option String
  vendor : Option String
  revenue : Rat
  cost : Rat
  profit : Rat
deriving DecidableEq

/-- The row filter predicate (`src/app.py` lines 42-48): a row survives
when both `Vendor` and `Country Destination` are non-null and not
whitespace-only. -/
def rowSurvives (r : InRow) : Bool :=
  !(isBlankCell r.vendor) && !(isBlankCell r.country)

/-- Numeric coercion (`src/app.py` lines 53-55): `to_numeric` with
`errors=coerce` followed by `fillna(0)` maps every non-numeric or null
cell to 0 and keeps numeric cells unchanged. -/
def coerceRow (r : InRow) : Row :=
  { customer := r.customer
    trunkGroup := r.trunkGroup
    country := r.country
    vendor := r.vendor
    revenue := r.revenue.getD 0
    cost := r.cost.getD 0
    profit := r.profit.getD 0 }

/-- The vendor mask (`src/app.py` lines 60-64): the uppercased vendor
contains "OPS", "IVG" or "PROXY 2" as a substring. -/
def vendorMatches (v : Option String) : Bool :=
  let u : List Char := (v.getD "").toList.map Char.toUpper
  containsPat u "OPS".toList || containsPat u "IVG".toList ||
    containsPat u "PROXY 2".toList

/-- Vendor recalculation (`src/app.py` lines 65-66): on masked rows set
`Cost` to 0 and `Profit` to `Revenue`; other rows are untouched. -/
def recalcRow (r : Row) : Row :=
  if vendorMatches r.vendor then { r with cost := 0, profit := r.revenue } else r

/-- The group key (`src/app.py` line 72): `Trunk Group` and
`Country Destination` joined by the separator "|||". The concatenation is
elementwise over pandas object columns, and a missing value (NaN) in
either operand propagates, so the key of a row with a null field is
itself missing (`none`). -/
def groupKey (r : Row) : Option String :=
  match r.trunkGroup, r.country with
  | some t, some c => some (t ++ "|||" ++ c)
  | _, _ => none

/-- Pandas equality on key cells, as used by the group selection
`df[df._group_key == group_key]` (`src/app.py` line 77): a missing value
(NaN) compares unequal to every value, itself included. -/
def keyEq (a b : Option String) : Bool :=
  match a, b with
  | some x, some y => x == y
  | _, _ => false

/-- First-occurrence deduplication, keeping keys not seen before; models
pandas `unique()` on the group-key column (`src/app.py` line 73), which
lists a missing value once. -/
def dedupAux {α : Type} [DecidableEq α] : List α → List α → List α
  | [], _ => []
  | k :: ks, seen => if k ∈ seen then dedupAux ks seen else k :: dedupAux ks (k :: seen)

/-- The distinct group keys in first-occurrence order. -/
def dedupKeys {α : Type} [DecidableEq α] (l : List α) : List α :=
  dedupAux l []

/-- The rows of one group (`src/app.py` line 77): the rows whose group key
equals the given key under pandas equality, in their original order. A
missing key selects no rows at all. -/
def groupRows (rs : List Row) (k : Option String) : List Row :=
  rs.filter (fun r => keyEq (groupKey r) k)

/-- Rounding to two decimals; models Python `round(x, 2)` on the ideal
rational value of the float. -/
def round2 (x : Rat) : Rat :=
  ((round (x * 100) : Int) : Rat) / 100

/-- An output row (`src/app.py` lines 86-95): numeric cells are `none`
exactly where the code writes the empty string. -/
structure OutRow where
  customer : String
  trunkGroup : String
  country : String
  vendor : String
  revenue : Option Rat
  cost : Option Rat
  profit : Option Rat
  profitPct : Option Rat
deriving DecidableEq

/-- A Detail output row (`src/app.py` lines 80-95), with the derived
profit percentage of lines 82-84. -/
def detailOut (r : Row) : OutRow :=
  { customer := r.customer
    trunkGroup := r.trunkGroup.getD ""
    country := r.country.getD ""
    vendor := r.vendor.getD ""
    revenue := some r.revenue
    cost := some r.cost
    profit := some r.profit
    profitPct := some (if r.revenue ≠ 0 then round2 (r.profit / r.revenue * 100) else 0) }

/-- The Subtotal output row of a group (`src/app.py` lines 97-115):
column sums rounded to two decimals, and the percentage computed from the
rounded totals, or 0 when the rounded revenue total is 0. -/
def subtotalOut (g : List Row) : OutRow :=
  { customer := ""
    trunkGroup := ""
    country := ""
    vendor := ""
    revenue := some (round2 ((g.map Row.revenue).sum))
    cost := some (round2 ((g.map Row.cost).sum))
    profit := some (round2 ((g.map Row.profit).sum))
    profitPct := some (if round2 ((g.map Row.revenue).sum) ≠ 0 then
      round2 (round2 ((g.map Row.profit).sum) / round2 ((g.map Row.revenue).sum) * 100)
      else 0) }

/-- A Spacer output row (`src/app.py` lines 119-129): fully blank. -/
def spacerOut : OutRow :=
  { customer := ""
    trunkGroup := ""
    country := ""
    vendor := ""
    revenue := none
    cost := none
    profit := none
    profitPct := none }

/-- The group loop (`src/app.py` lines 75-129): per key, the Detail rows
of the group, then its Subtotal row, then 5 Spacer rows except after the
last group. -/
def emitGroups (rs : List Row) : List (Option String) → List OutRow
  | [] => []
  | [k] => (groupRows rs k).map detailOut ++ [subtotalOut (groupRows rs k)]
  | k :: k2 :: ks =>
      (groupRows rs k).map detailOut ++ [subtotalOut (groupRows rs k)] ++
        List.replicate 5 spacerOut ++ emitGroups rs (k2 :: ks)

/-- The denylist of informational columns (`src/app.py` lines 26-29). -/
def columns_to_remove : List String :=
  ["Attempts", "Completions", "Minutes", "ASR %", "NER %", "Aloc",
   "PPM", "PRV", "NEPR %", "SDR %", "MOS", "PDD", "LCR Depth"]

/-- The seven required columns (`src/app.py` line 36). -/
def required_columns : List String :=
  ["Customer Relationships", "Trunk Group", "Country Destination",
   "Vendor", "Revenue", "Cost", "Profit"]

/-- Whitespace trimming on both ends, modelling pandas `str.strip()` on
column names. -/
def trimStr (s : String) : String :=
  String.mk (((s.data.dropWhile isWsChar).reverse.dropWhile isWsChar).reverse)

/-- Column sanitisation (`src/app.py` lines 23-33): trim column names,
then drop the denylisted ones. -/
def sanitizeCols (cols : List String) : List String :=
  (cols.map trimStr).filter (fun c => c ∉ columns_to_remove)

/-- The required columns missing after sanitisation
(`src/app.py` line 37). -/
def missingColumns (cols : List String) : List String :=
  required_columns.filter (fun c => c ∉ sanitizeCols cols)

/-- The error outcomes of processing (`src/app.py` lines 40 and 51). -/
inductive ProcError where
  | schemaError (missing : List String) (available : List String)
  | emptyResult
deriving DecidableEq

/-- The summary record (`src/app.py` lines 164-169). Note that the code
reports `len(df)` after the filter as the input row count. -/
structure Summary where
  inputRows : Nat
  recalcCount : Nat
  groupCount : Nat
  outputRows : Nat
deriving DecidableEq

/-- The successful result (`src/app.py` line 171): the output table and
the preview handed to the presentation layer (the code returns the whole
`result_df` as the preview), plus the summary. -/
structure ProcOutput where
  outRows : List OutRow
  preview : List OutRow
  summary : Summary
deriving DecidableEq

/-- The surviving rows after the filter, coerced and recalculated
(`src/app.py` lines 42-66). -/
def recalcedRows (rows : List InRow) : List Row :=
  (rows.filter rowSurvives).map (fun r => recalcRow (coerceRow r))

/-- The distinct group keys of the processed table
(`src/app.py` lines 72-73). -/
def theKeys (rows : List InRow) : List (Option String) :=
  dedupKeys ((recalcedRows rows).map groupKey)

/-- The successful output of processing (`src/app.py` lines 69-171). -/
def buildOutput (rows : List InRow) : ProcOutput :=
  { outRows := emitGroups (recalcedRows rows) (theKeys rows)
    preview := emitGroups (recalcedRows rows) (theKeys rows)
    summary :=
      { inputRows := (rows.filter rowSurvives).length
        recalcCount := ((rows.filter rowSurvives).filter (fun r => vendorMatches r.vendor)).length
        groupCount := (theKeys rows).length
        outputRows := (emitGroups (recalcedRows rows) (theKeys rows)).length } }

/-- The whole pipeline (`src/app.py` lines 9-171): schema validation,
row filter with the empty-result check, then the transformation. -/
def process_csv (cols : List String) (rows : List InRow) : Except ProcError ProcOutput :=
  if missingColumns cols = [] then
    if rows.filter rowSurvives = [] then Except.error ProcError.emptyResult
    else Except.ok (buildOutput rows)
  else Except.error (ProcError.schemaError (missingColumns cols) (sanitizeCols cols))

/-- The outcome of the delete operation (`src/app.py` lines 282-300). -/
inductive DeleteOutcome where
  | cancelled
  | deleted (filename : String)
  | notFound (filename : String)
deriving DecidableEq

/-- The delete operation (`src/app.py` lines 282-300) over the output
directory, modelled as the list of file names it holds: without the
confirmation flag nothing is touched; otherwise the named file is removed
when present. -/
def delete_processed_file (files : List String) (filename : String) (confirm : Bool) :
    List String × DeleteOutcome :=
  if !confirm then (files, DeleteOutcome.cancelled)
  else if filename ∈ files then (files.erase filename, DeleteOutcome.deleted filename)
  else (files, DeleteOutcome.notFound filename)

/-! ## Accessors and concrete inputs used by the claim theorems -/

/-- The group count a processing result reports, 0 on error. -/
def groupCountOf (e : Except ProcError ProcOutput) : Nat :=
  match e with
  | Except.ok o => o.summary.groupCount
  | Except.error _ => 0

/-- The length of the preview a processing result carries, 0 on error. -/
def previewLenOf (e : Except ProcError ProcOutput) : Nat :=
  match e with
  | Except.ok o => o.preview.length
  | Except.error _ => 0

/-- The length of the output table a processing result carries, 0 on
error. -/
def outLenOf (e : Except ProcError ProcOutput) : Nat :=
  match e with
  | Except.ok o => o.summary.outputRows
  | Except.error _ => 0

/-- The output rows a processing result carries, empty on error. -/
def outRowsOf (e : Except ProcError ProcOutput) : List OutRow :=
  match e with
  | Except.ok o => o.outRows
  | Except.error _ => []

/-- A surviving row whose `Trunk Group` cell is null (NaN): the filter
never examines that column, so the row survives. -/
def c1nullRow : InRow :=
  { customer := "n"
    trunkGroup := none
    country := some "US"
    vendor := some "VN"
    revenue := some 1
    cost := some 1
    profit := some 0 }

/-- An ordinary surviving row sharing the table with `c1nullRow`. -/
def c1okRow : InRow :=
  { customer := "k"
    trunkGroup := some "T1"
    country := some "US"
    vendor := some "VK"
    revenue := some 2
    cost := some 1
    profit := some 1 }

/-- A surviving row with a vendor matching the recalculation mask. -/
def c2row : InRow :=
  { customer := "c2"
    trunkGroup := some "T2"
    country := some "US"
    vendor := some "Ops 7"
    revenue := some 50
    cost := some 20
    profit := some 30 }

/-- A surviving row whose trunk group contains the separator "|||". -/
def c4rowA : InRow :=
  { customer := "x"
    trunkGroup := some "A|||B"
    country := some "C"
    vendor := some "V1"
    revenue := some 1
    cost := some 0
    profit := some 1 }

/-- A surviving row whose country contains the separator "|||". -/
def c4rowB : InRow :=
  { customer := "y"
    trunkGroup := some "A"
    country := some "B|||C"
    vendor := some "V2"
    revenue := some 2
    cost := some 0
    profit := some 2 }

/-- A row with an empty trunk group but non-blank vendor and country. -/
def c5row : InRow :=
  { customer := "c"
    trunkGroup := some ""
    country := some "US"
    vendor := some "V"
    revenue := none
    cost := none
    profit := none }

/-- An ordinary surviving row. -/
def c6row : InRow :=
  { customer := "c1"
    trunkGroup := some "T1"
    country := some "US"
    vendor := some "ACME"
    revenue := some 100
    cost := some 40
    profit := some 60 }

/-- A row dropped by the filter: its vendor is whitespace-only. -/
def c7row : InRow :=
  { customer := "c7"
    trunkGroup := some "T7"
    country := some "FR"
    vendor := some "  "
    revenue := some 1
    cost := some 1
    profit := some 0 }

/-- Four surviving rows in four distinct groups, so processing emits
4 + 4 + 15 = 23 output rows. -/
def c9rows : List InRow :=
  [ { customer := "a"
      trunkGroup := some "T1"
      country := some "US"
      vendor := some "VA"
      revenue := some 1
      cost := some 1
      profit := some 0 }
  , { customer := "b"
      trunkGroup := some "T2"
      country := some "US"
      vendor := some "VB"
      revenue := some 1
      cost := some 1
      profit := some 0 }
  , { customer := "c"
      trunkGroup := some "T3"
      country := some "US"
      vendor := some "VC"
      revenue := some 1
      cost := some 1
      profit := some 0 }
  , { customer := "d"
      trunkGroup := some "T4"
      country := some "US"
      vendor := some "VD"
      revenue := some 1
      cost := some 1
      profit := some 0 } ]

/-! ## Claim theorems -/

/-- C2: for every surviving row whose vendor, case-insensitively,
contains "OPS", "IVG" or "PROXY 2", the emitted Detail row has cost 0 and
profit equal to the post-coercion revenue. -/
theorem C2_matched_vendor_recalc (rows : List InRow) (r : InRow)
    (hmem : r ∈ rows.filter rowSurvives)
    (hv : vendorMatches r.vendor = true) :
    recalcRow (coerceRow r) ∈ recalcedRows rows ∧
    (detailOut (recalcRow (coerceRow r))).cost = some 0 ∧
    (detailOut (recalcRow (coerceRow r))).profit = some ((coerceRow r).revenue) := by
  have hv2 : vendorMatches (coerceRow r).vendor = true := hv
  refine ⟨List.mem_map_of_mem _ hmem, ?_, ?_⟩ <;>
    simp [detailOut, recalcRow, hv2]

/-- C2 witness: the theorem applied to a concrete matching row. -/
theorem C2_matched_vendor_recalc_witness :
    recalcRow (coerceRow c2row) ∈ recalcedRows [c2row] ∧
    (detailOut (recalcRow (coerceRow c2row))).cost = some 0 ∧
    (detailOut (recalcRow (coerceRow c2row))).profit = some ((coerceRow c2row).revenue) :=
  C2_matched_vendor_recalc [c2row] c2row (by decide) (by decide)

/-- C3: the Subtotal row of a group carries the sums of the values shown
in the Detail rows of the group, each rounded to two decimals, and its
percentage is computed from those rounded totals, or 0 when the rounded
revenue total is 0. -/
theorem C3_subtotal_sums (g : List Row) :
    (subtotalOut g).revenue = some (round2 ((g.map (fun r => ((detailOut r).revenue).getD 0)).sum)) ∧
    (subtotalOut g).cost = some (round2 ((g.map (fun r => ((detailOut r).cost).getD 0)).sum)) ∧
    (subtotalOut g).profit = some (round2 ((g.map (fun r => ((detailOut r).profit).getD 0)).sum)) ∧
    (subtotalOut g).profitPct = some (
      if round2 ((g.map (fun r => ((detailOut r).revenue).getD 0)).sum) = 0 then 0
      else round2 (round2 ((g.map (fun r => ((detailOut r).profit).getD 0)).sum) /
        round2 ((g.map (fun r => ((detailOut r).revenue).getD 0)).sum) * 100)) := by
  refine ⟨?_, ?_, ?_, ?_⟩ <;> simp [subtotalOut, detailOut, ite_not]

/-- C5 counterexample: a row with an empty trunk group survives the
filter, so the filter does not force trunk groups to be non-empty. -/
theorem C5_counterexample :
    List.filter rowSurvives [c5row] = [c5row] ∧ c5row.trunkGroup = some "" := by
  decide

/-- C5 amended: after the filter every surviving row has a non-blank
vendor and a non-blank country; the trunk group is unconstrained. -/
theorem C5_filter_nonblank_vendor_country (rows : List InRow) (r : InRow)
    (hmem : r ∈ rows.filter rowSurvives) :
    isBlankCell r.vendor = false ∧ isBlankCell r.country = false := by
  have h := (List.mem_filter.mp hmem).2
  simp only [rowSurvives, Bool.and_eq_true, Bool.not_eq_true'] at h
  exact h

/-- C5 amended witness: the amended statement at a concrete input. -/
theorem C5_filter_nonblank_vendor_country_witness :
    isBlankCell c6row.vendor = false ∧ isBlankCell c6row.country = false :=
  C5_filter_nonblank_vendor_country [c6row] c6row (by decide)

/-- C6: for every surviving row whose vendor does not match the mask,
recalculation leaves the row unchanged and the emitted Detail row shows
the coerced revenue, cost and profit as they are. -/
theorem C6_unmatched_vendor_frame (rows : List InRow) (r : InRow)
    (hmem : r ∈ rows.filter rowSurvives)
    (hv : vendorMatches r.vendor = false) :
    recalcRow (coerceRow r) = coerceRow r ∧
    recalcRow (coerceRow r) ∈ recalcedRows rows ∧
    (detailOut (recalcRow (coerceRow r))).revenue = some ((coerceRow r).revenue) ∧
    (detailOut (recalcRow (coerceRow r))).cost = some ((coerceRow r).cost) ∧
    (detailOut (recalcRow (coerceRow r))).profit = some ((coerceRow r).profit) := by
  have hv2 : vendorMatches (coerceRow r).vendor = false := hv
  have heq : recalcRow (coerceRow r) = coerceRow r := by
    simp [recalcRow, hv2]
  refine ⟨heq, List.mem_map_of_mem _ hmem, ?_, ?_, ?_⟩ <;> rw [heq] <;> rfl

/-- C6 witness: the theorem applied to a concrete non-matching row. -/
theorem C6_unmatched_vendor_frame_witness :
    recalcRow (coerceRow c6row) = coerceRow c6row ∧
    recalcRow (coerceRow c6row) ∈ recalcedRows [c6row] ∧
    (detailOut (recalcRow (coerceRow c6row))).revenue = some ((coerceRow c6row).revenue) ∧
    (detailOut (recalcRow (coerceRow c6row))).cost = some ((coerceRow c6row).cost) ∧
    (detailOut (recalcRow (coerceRow c6row))).profit = some ((coerceRow c6row).profit) :=
  C6_unmatched_vendor_frame [c6row] c6row (by decide) (by decide)

/-- C10: with the confirmation flag false the delete operation changes
nothing and reports a cancellation, whether or not the file exists. -/
theorem C10_delete_unconfirmed_noop (files : List String) (filename : String) :
    delete_processed_file files filename false = (files, DeleteOutcome.cancelled) := by
  rfl

/-- C4: the group key joins the two fields with the separator "|||", so
two rows whose fields differ can still collide; at this input the code
forms one single group out of two rows with different trunk groups and
different countries. -/
theorem C4_group_key_collision :
    groupCountOf (process_csv required_columns [c4rowA, c4rowB]) = 1 ∧
    c4rowA.trunkGroup ≠ c4rowB.trunkGroup ∧
    c4rowA.country ≠ c4rowB.country ∧
    groupKey (recalcRow (coerceRow c4rowA)) = groupKey (recalcRow (coerceRow c4rowB)) := by
  decide

/-- C7: with the schema valid, processing fails with the empty-result
error exactly when the filter leaves no row; the filter is stable (the
survivors form a sublist of the input) and keeps exactly the rows whose
vendor and country are both non-blank. -/
theorem C7_empty_result_iff (cols : List String) (rows : List InRow)
    (h : missingColumns cols = []) :
    (process_csv cols rows = Except.error ProcError.emptyResult ↔
      rows.filter rowSurvives = []) ∧
    List.Sublist (rows.filter rowSurvives) rows ∧
    (∀ r, r ∈ rows.filter rowSurvives ↔
      (r ∈ rows ∧ isBlankCell r.vendor = false ∧ isBlankCell r.country = false)) := by
  refine ⟨?_, List.filter_sublist rows, ?_⟩
  · constructor
    · intro he
      by_contra hne
      simp [process_csv, h, hne] at he
    · intro hf
      simp [process_csv, h, hf]
  · intro r
    rw [List.mem_filter]
    simp only [rowSurvives, Bool.and_eq_true, Bool.not_eq_true']

/-- C7 witness: the theorem applied to concrete columns and rows, one of
which is dropped for its whitespace-only vendor. -/
theorem C7_empty_result_iff_witness :
    (process_csv required_columns [c6row, c7row] = Except.error ProcError.emptyResult ↔
      [c6row, c7row].filter rowSurvives = []) ∧
    List.Sublist ([c6row, c7row].filter rowSurvives) [c6row, c7row] ∧
    (∀ r, r ∈ [c6row, c7row].filter rowSurvives ↔
      (r ∈ [c6row, c7row] ∧ isBlankCell r.vendor = false ∧ isBlankCell r.country = false)) :=
  C7_empty_result_iff required_columns [c6row, c7row] (by decide)

/-- C8: with a required column missing, processing returns the schema
error carrying every missing required column and the sanitised column
list, and no successful output exists. -/
theorem C8_schema_error (cols : List String) (rows : List InRow)
    (h : missingColumns cols ≠ []) :
    process_csv cols rows =
      Except.error (ProcError.schemaError (missingColumns cols) (sanitizeCols cols)) ∧
    (∀ c, c ∈ required_columns → c ∉ sanitizeCols cols → c ∈ missingColumns cols) ∧
    (∀ o, ¬ process_csv cols rows = Except.ok o) := by
  have h1 : process_csv cols rows =
      Except.error (ProcError.schemaError (missingColumns cols) (sanitizeCols cols)) := by
    simp [process_csv, h]
  refine ⟨h1, ?_, ?_⟩
  · intro c hc hn
    simp only [missingColumns, List.mem_filter]
    exact ⟨hc, by simpa using hn⟩
  · intro o ho
    rw [h1] at ho
    exact Except.noConfusion ho

/-- C8 witness: the theorem applied to a column list missing most of the
required columns. -/
theorem C8_schema_error_witness :
    process_csv ["Trunk Group"] [] =
      Except.error (ProcError.schemaError (missingColumns ["Trunk Group"])
        (sanitizeCols ["Trunk Group"])) ∧
    (∀ c, c ∈ required_columns → c ∉ sanitizeCols ["Trunk Group"] →
      c ∈ missingColumns ["Trunk Group"]) ∧
    (∀ o, ¬ process_csv ["Trunk Group"] [] = Except.ok o) :=
  C8_schema_error ["Trunk Group"] [] (by decide)

/-- C9 counterexample: at an input producing 23 output rows, the preview
handed back carries all 23 rows, not only the first min(20, 23) = 20. -/
theorem C9_counterexample :
    previewLenOf (process_csv required_columns c9rows) = 23 ∧
    outLenOf (process_csv required_columns c9rows) = 23 ∧
    ¬ previewLenOf (process_csv required_columns c9rows) =
      min 20 (outLenOf (process_csv required_columns c9rows)) := by
  decide

/-- C9 amended: the preview returned to the presentation layer is the
entire output table, with no 20-row bound. -/
theorem C9_preview_is_full_output (cols : List String) (rows : List InRow) :
    Except.map ProcOutput.preview (process_csv cols rows) =
      Except.map ProcOutput.outRows (process_csv cols rows) := by
  unfold process_csv
  by_cases h1 : missingColumns cols = []
  · by_cases h2 : rows.filter rowSurvives = [] <;>
      simp [h1, h2, buildOutput, Except.map]
  · simp [h1, Except.map]


/-! ## Counting lemmas for the output-row structure -/

/-- Sums of pointwise-added maps split. -/
theorem sumMapAdd {α : Type} (l : List α) (f g : α → Nat) :
    (l.map (fun x => f x + g x)).sum = (l.map f).sum + (l.map g).sum := by
  induction l with
  | nil => simp
  | cons x xs ih =>
    simp only [List.map_cons, List.sum_cons, ih]
    omega

/-- Over a duplicate-free list that holds `a`, the indicator of `a` sums
to 1. -/
theorem sumIndicator {α : Type} [DecidableEq α] (keys : List α) (a : α)
    (hnd : keys.Nodup) (ha : a ∈ keys) :
    (keys.map (fun k => if a = k then 1 else 0)).sum = 1 := by
  induction keys with
  | nil => cases ha
  | cons k ks ih =>
    rcases List.nodup_cons.mp hnd with ⟨hk, hks⟩
    by_cases hak : a = k
    · subst hak
      have hz : (ks.map (fun x => if a = x then 1 else 0)).sum = 0 := by
        apply List.sum_eq_zero
        intro n hn
        rcases List.mem_map.mp hn with ⟨y, hy, hEq⟩
        have hay : a ≠ y := fun hc => hk (hc ▸ hy)
        simp only [hay, if_false] at hEq
        omega
      simp [hz]
    · have ha2 : a ∈ ks := by
        rcases List.mem_cons.mp ha with h | h
        · exact absurd h hak
        · exact h
      simp [hak, ih hks ha2]

/-- Pandas equality against a present key agrees with plain equality. -/
theorem keyEq_some_iff (s : String) (k : Option String) :
    keyEq (some s) k = true ↔ some s = k := by
  cases k with
  | none => simp [keyEq]
  | some y => simp [keyEq]

/-- Group size after consing a row: the head contributes exactly when its
key matches under pandas equality. -/
theorem groupRows_cons (r : Row) (rs : List Row) (k : Option String) :
    (groupRows (r :: rs) k).length =
      (if keyEq (groupKey r) k then 1 else 0) + (groupRows rs k).length := by
  simp only [groupRows, List.filter_cons]
  by_cases h : keyEq (groupKey r) k
  · simp [h]
    omega
  · simp [h]

/-- Partitioning: when the duplicate-free key list covers every row and no
row carries a missing key, the group sizes sum to the number of rows.
The non-missing hypothesis is essential: a missing key selects no rows. -/
theorem count_partition (keys : List (Option String)) (hnd : keys.Nodup) :
    ∀ rs : List Row, (∀ r, r ∈ rs → groupKey r ∈ keys) →
      (∀ r, r ∈ rs → groupKey r ≠ none) →
      (keys.map (fun k => (groupRows rs k).length)).sum = rs.length := by
  intro rs
  induction rs with
  | nil =>
    intro _ _
    apply List.sum_eq_zero
    intro n hn
    rcases List.mem_map.mp hn with ⟨k, _, hEq⟩
    simpa [groupRows] using hEq.symm
  | cons r rs ih =>
    intro hcov hsome
    have hr : groupKey r ∈ keys := hcov r (List.mem_cons_self r rs)
    have hrn : groupKey r ≠ none := hsome r (List.mem_cons_self r rs)
    have hcov2 : ∀ x, x ∈ rs → groupKey x ∈ keys :=
      fun x hx => hcov x (List.mem_cons_of_mem r hx)
    have hsome2 : ∀ x, x ∈ rs → groupKey x ≠ none :=
      fun x hx => hsome x (List.mem_cons_of_mem r hx)
    rcases hs : groupKey r with _ | s
    · exact absurd hs hrn
    · have hind : ∀ k, (if keyEq (groupKey r) k then (1 : Nat) else 0) =
          (if groupKey r = k then 1 else 0) := by
        intro k
        rw [hs]
        by_cases hk : some s = k
        · rw [if_pos ((keyEq_some_iff s k).mpr hk), if_pos hk]
        · rw [if_neg (fun hc => hk ((keyEq_some_iff s k).mp hc)), if_neg hk]
      simp only [groupRows_cons, hind]
      rw [sumMapAdd, sumIndicator keys (groupKey r) hnd hr, ih hcov2 hsome2]
      simp only [List.length_cons]
      omega

/-- Membership in the deduplication loop: present in the input and not
already seen. -/
theorem mem_dedupAux {α : Type} [DecidableEq α] (a : α) :
    ∀ (l seen : List α), (a ∈ dedupAux l seen ↔ (a ∈ l ∧ a ∉ seen)) := by
  intro l
  induction l with
  | nil => intro seen; simp [dedupAux]
  | cons k ks ih =>
    intro seen
    simp only [dedupAux]
    by_cases hk : k ∈ seen
    · rw [if_pos hk, ih seen]
      constructor
      · rintro ⟨h1, h2⟩
        exact ⟨List.mem_cons_of_mem k h1, h2⟩
      · rintro ⟨h1, h2⟩
        rcases List.mem_cons.mp h1 with rfl | h1
        · exact absurd hk h2
        · exact ⟨h1, h2⟩
    · rw [if_neg hk, List.mem_cons, ih (k :: seen)]
      constructor
      · rintro (rfl | ⟨h1, h2⟩)
        · exact ⟨List.mem_cons_self a ks, hk⟩
        · exact ⟨List.mem_cons_of_mem k h1, fun hc => h2 (List.mem_cons_of_mem k hc)⟩
      · rintro ⟨h1, h2⟩
        rcases List.mem_cons.mp h1 with rfl | h1
        · exact Or.inl rfl
        · by_cases hak : a = k
          · exact Or.inl hak
          · refine Or.inr ⟨h1, fun hc => ?_⟩
            rcases List.mem_cons.mp hc with h | h
            · exact hak h
            · exact h2 h

/-- The deduplication loop produces no duplicates. -/
theorem nodup_dedupAux {α : Type} [DecidableEq α] :
    ∀ (l seen : List α), (dedupAux l seen).Nodup := by
  intro l
  induction l with
  | nil => intro seen; simp [dedupAux]
  | cons k ks ih =>
    intro seen
    simp only [dedupAux]
    by_cases hk : k ∈ seen
    · rw [if_pos hk]; exact ih seen
    · rw [if_neg hk]
      refine List.nodup_cons.mpr ⟨?_, ih (k :: seen)⟩
      intro hc
      exact ((mem_dedupAux k ks (k :: seen)).mp hc).2 (List.mem_cons_self k seen)

/-- The distinct keys are exactly the keys occurring in the input. -/
theorem mem_dedupKeys {α : Type} [DecidableEq α] (a : α) (l : List α) :
    a ∈ dedupKeys l ↔ a ∈ l := by
  rw [dedupKeys, mem_dedupAux]
  simp

/-- The distinct keys carry no duplicate. -/
theorem nodup_dedupKeys {α : Type} [DecidableEq α] (l : List α) :
    (dedupKeys l).Nodup :=
  nodup_dedupAux l []

/-- A non-empty key column yields a non-empty distinct-key list. -/
theorem dedupKeys_ne_nil {α : Type} [DecidableEq α] (l : List α) (h : l ≠ []) :
    dedupKeys l ≠ [] := by
  match l with
  | [] => exact absurd rfl h
  | x :: xs =>
    rw [dedupKeys]
    simp only [dedupAux]
    rw [if_neg (List.not_mem_nil x)]
    exact List.cons_ne_nil _ _

/-- The length of the emitted output: the selected Detail rows per group,
one Subtotal row per group, 5 Spacer rows between consecutive groups. -/
theorem emitGroups_length (rs : List Row) :
    ∀ keys : List (Option String), keys ≠ [] →
      (emitGroups rs keys).length =
        (keys.map (fun k => (groupRows rs k).length)).sum + keys.length +
          5 * (keys.length - 1) := by
  intro keys
  induction keys with
  | nil => intro h; exact absurd rfl h
  | cons k tail ih =>
    intro _
    cases tail with
    | nil =>
      simp only [emitGroups, List.length_append, List.length_map, List.length_cons,
        List.length_nil, List.map_cons, List.map_nil, List.sum_cons, List.sum_nil]
      omega
    | cons k2 ks =>
      have h2 : (k2 :: ks : List (Option String)) ≠ [] := List.cons_ne_nil k2 ks
      simp only [emitGroups, List.length_append, List.length_map, List.length_cons,
        List.length_replicate, List.length_nil]
      rw [ih h2]
      simp only [List.map_cons, List.sum_cons, List.length_cons]
      omega

/-- Recalculation never touches the two key fields. -/
theorem recalc_preserves_key_fields (r : Row) :
    (recalcRow r).trunkGroup = r.trunkGroup ∧ (recalcRow r).country = r.country := by
  by_cases h : vendorMatches r.vendor <;> simp [recalcRow, h]

/-- A row with both key fields present has a present group key. -/
theorem groupKey_some (r : Row) (ht : r.trunkGroup ≠ none) (hc : r.country ≠ none) :
    groupKey r ≠ none := by
  rcases Option.ne_none_iff_exists.mp ht with ⟨t, htt⟩
  rcases Option.ne_none_iff_exists.mp hc with ⟨c, hcc⟩
  unfold groupKey
  rw [← htt, ← hcc]
  simp

/-- A non-blank cell is in particular non-null. -/
theorem ne_none_of_not_blank (v : Option String) (h : isBlankCell v = false) :
    v ≠ none := by
  intro hc
  simp [hc, isBlankCell] at h

/-- Boundary of the count formula: on every input whose surviving rows all
carry a non-null `Trunk Group`, processing succeeds and the output row
count is the surviving row count, plus one Subtotal row per group, plus 5
Spacer rows per gap between groups. Together with the C1 theorem below,
this pins the divergence from the claimed formula to exactly the rows
whose `Trunk Group` is null. -/
theorem output_count_of_non_null_trunks (cols : List String) (rows : List InRow)
    (hschema : missingColumns cols = [])
    (hne : rows.filter rowSurvives ≠ [])
    (htr : ∀ r, r ∈ rows.filter rowSurvives → r.trunkGroup ≠ none) :
    ∃ o, process_csv cols rows = Except.ok o ∧
      1 ≤ o.summary.groupCount ∧
      o.outRows.length =
        (rows.filter rowSurvives).length + o.summary.groupCount +
          5 * (o.summary.groupCount - 1) := by
  have hrs : recalcedRows rows ≠ [] := by
    simp only [recalcedRows, ne_eq, List.map_eq_nil_iff]
    exact hne
  have hkeys : theKeys rows ≠ [] := by
    apply dedupKeys_ne_nil
    simp only [ne_eq, List.map_eq_nil_iff]
    exact hrs
  have hG1 : 1 ≤ (theKeys rows).length := List.length_pos.mpr hkeys
  have hcov : ∀ r, r ∈ recalcedRows rows → groupKey r ∈ theKeys rows :=
    fun r hr => (mem_dedupKeys _ _).mpr (List.mem_map_of_mem groupKey hr)
  have hsome : ∀ r, r ∈ recalcedRows rows → groupKey r ≠ none := by
    intro r hr
    rcases List.mem_map.mp hr with ⟨r0, hr0, rfl⟩
    have hsurv := (List.mem_filter.mp hr0).2
    simp only [rowSurvives, Bool.and_eq_true, Bool.not_eq_true'] at hsurv
    have e1 : (recalcRow (coerceRow r0)).trunkGroup = r0.trunkGroup :=
      (recalc_preserves_key_fields (coerceRow r0)).1
    have e2 : (recalcRow (coerceRow r0)).country = r0.country :=
      (recalc_preserves_key_fields (coerceRow r0)).2
    apply groupKey_some
    · rw [e1]; exact htr r0 hr0
    · rw [e2]; exact ne_none_of_not_blank _ hsurv.2
  have hcount : (emitGroups (recalcedRows rows) (theKeys rows)).length =
      (rows.filter rowSurvives).length + (theKeys rows).length +
        5 * ((theKeys rows).length - 1) := by
    rw [emitGroups_length _ _ hkeys,
      count_partition (theKeys rows) (nodup_dedupKeys _) (recalcedRows rows) hcov hsome]
    simp [recalcedRows]
  exact ⟨buildOutput rows, by simp [process_csv, hschema, hne], hG1, hcount⟩

/-- C1: a surviving row with a null `Trunk Group` breaks the claimed
count. Its group key is missing, pandas equality selects no rows for a
missing key, so its Detail row is never emitted while a Subtotal row for
the missing-key group still is. At this two-survivor, two-group input the
code emits 8 output rows where the claimed formula demands
2 + 2 + 5 * (2 - 1) = 9, and the dropped row's customer value appears in
no output row while the other survivor appears in exactly one. -/
theorem C1_null_trunk_group_row_lost :
    ([c1nullRow, c1okRow].filter rowSurvives).length = 2 ∧
    groupCountOf (process_csv required_columns [c1nullRow, c1okRow]) = 2 ∧
    outLenOf (process_csv required_columns [c1nullRow, c1okRow]) = 8 ∧
    ((outRowsOf (process_csv required_columns [c1nullRow, c1okRow])).filter
      (fun o => o.customer == "n")).length = 0 ∧
    ((outRowsOf (process_csv required_columns [c1nullRow, c1okRow])).filter
      (fun o => o.customer == "k")).length = 1 ∧
    ¬ (8 : Nat) = 2 + 2 + 5 * (2 - 1) := by
  decide
